import Mathlib

/-!
# BLE SDK10 examples: pin configuration tables and timing helpers

A shallow embedding of

* `features/dsps_ble_central/platform_devices.c` (the static UART driver and
  bus descriptor tables, including their conditional-compilation guards), and
* `features/dsps_ble_peripheral/misc/include/misc.h` (the context-aware tick
  read and the interfaces of the timestamp, GPIO and PDC helpers),

followed by the properties established for them.
-/

namespace BleSdk10

/-! ## Enumerations named by `platform_devices.c` -/

/-- GPIO drive modes used by the tables. -/
inductive HW_GPIO_MODE where
  | HW_GPIO_MODE_INPUT
  | HW_GPIO_MODE_OUTPUT
  deriving DecidableEq, Repr

/-- GPIO function selectors used by the tables. -/
inductive HW_GPIO_FUNC where
  | HW_GPIO_FUNC_GPIO
  | HW_GPIO_FUNC_UART2_RX
  | HW_GPIO_FUNC_UART2_TX
  | HW_GPIO_FUNC_UART2_RTSN
  | HW_GPIO_FUNC_UART2_CTSN
  deriving DecidableEq, Repr

/-- Supply rail selector of a pin; the table uses the 3.3 V rail. -/
inductive HW_GPIO_POWER where
  | HW_GPIO_POWER_V33
  | HW_GPIO_POWER_VDD1V8P
  deriving DecidableEq, Repr

inductive HW_UART_DATABITS where
  | HW_UART_DATABITS_5
  | HW_UART_DATABITS_6
  | HW_UART_DATABITS_7
  | HW_UART_DATABITS_8
  deriving DecidableEq, Repr

inductive HW_UART_PARITY where
  | HW_UART_PARITY_NONE
  | HW_UART_PARITY_ODD
  | HW_UART_PARITY_EVEN
  deriving DecidableEq, Repr

inductive HW_UART_STOPBITS where
  | HW_UART_STOPBITS_1
  | HW_UART_STOPBITS_2
  deriving DecidableEq, Repr

/-- Modelled from the spec: the enumeration of transfer-engine (DMA) channel
ids is declared in a driver header that is not part of the translated sources;
its enumerators are the channel ids, one per channel. -/
inductive HW_DMA_CHANNEL where
  | HW_DMA_CHANNEL_0
  | HW_DMA_CHANNEL_1
  | HW_DMA_CHANNEL_2
  | HW_DMA_CHANNEL_3
  | HW_DMA_CHANNEL_4
  | HW_DMA_CHANNEL_5
  | HW_DMA_CHANNEL_6
  | HW_DMA_CHANNEL_7
  deriving DecidableEq, Repr

open HW_GPIO_MODE HW_GPIO_FUNC HW_GPIO_POWER HW_UART_DATABITS HW_UART_PARITY
  HW_UART_STOPBITS HW_DMA_CHANNEL

/-! ## Build-time configuration -/

/-- The preprocessor symbols `platform_devices.c` depends on.  The two
flow-control switches are tested with `#ifdef` (so each is a Boolean:
defined or not); the remaining macros are board constants whose values are
supplied by configuration headers. -/
structure BuildConfig where
  CFG_UART_HW_FLOW_CTRL : Bool
  CFG_UART_SW_FLOW_CTRL : Bool
  CFG_UART_SPS_BAUDRATE : Nat
  UART_RX_PORT : Nat
  UART_RX_PIN : Nat
  UART_TX_PORT : Nat
  UART_TX_PIN : Nat
  UART_RTS_PORT : Nat
  UART_RTS_PIN : Nat
  UART_CTS_PORT : Nat
  UART_CTS_PIN : Nat
  deriving DecidableEq, Repr

/-! ## Pin descriptors -/

/-- One named state of a pin: the positional initialiser
`{ mode, function, high }`. -/
structure ad_pin_conf_t where
  mode : HW_GPIO_MODE
  function : HW_GPIO_FUNC
  high : Bool
  deriving DecidableEq, Repr

/-- A pin descriptor: identity plus its `.on` and `.off` states (spelled `on_`
and `off_`, as `on` is reserved). -/
structure ad_io_conf_t where
  port : Nat
  pin : Nat
  on_ : ad_pin_conf_t
  off_ : ad_pin_conf_t
  deriving DecidableEq, Repr

/-! ## The driver descriptor `uart_drv` -/

/-- Field designators of `uart_drv.hw_conf`: the fields the table names in any
build.  The structure declaration itself is in a driver header outside the
translated sources. -/
inductive HwConfField where
  | baud_rate
  | data
  | parity
  | stop
  | auto_flow_control
  | use_dma
  | use_fifo
  | tx_fifo_tr_lvl
  | rx_fifo_tr_lvl
  | tx_dma_burst_lvl
  | rx_dma_burst_lvl
  | tx_dma_channel
  | rx_dma_channel
  deriving DecidableEq, Repr

/-- Right-hand sides of the designated initialisers of `hw_conf`. -/
inductive HwConfValue where
  | num (n : Nat)
  | databits (d : HW_UART_DATABITS)
  | paritySel (p : HW_UART_PARITY)
  | stopbits (s : HW_UART_STOPBITS)
  | dma (c : HW_DMA_CHANNEL)
  deriving DecidableEq, Repr

/-- The designated-initialiser list of `uart_drv.hw_conf`, in source order,
after preprocessing under build configuration `b`. -/
def uart_drv (b : BuildConfig) : List (HwConfField × HwConfValue) :=
  [ (HwConfField.baud_rate, HwConfValue.num b.CFG_UART_SPS_BAUDRATE),
    (HwConfField.data, HwConfValue.databits HW_UART_DATABITS_8),
    (HwConfField.parity, HwConfValue.paritySel HW_UART_PARITY_NONE),
    (HwConfField.stop, HwConfValue.stopbits HW_UART_STOPBITS_1) ]
  ++ (if b.CFG_UART_HW_FLOW_CTRL then
        [ (HwConfField.auto_flow_control, HwConfValue.num 1) ] else [])
  ++ (if b.CFG_UART_SW_FLOW_CTRL then
        [ (HwConfField.auto_flow_control, HwConfValue.num 0) ] else [])
  ++ [ (HwConfField.use_dma, HwConfValue.num 1),
       (HwConfField.use_fifo, HwConfValue.num 1),
       (HwConfField.tx_fifo_tr_lvl, HwConfValue.num 0),
       (HwConfField.rx_fifo_tr_lvl, HwConfValue.num 0),
       (HwConfField.tx_dma_burst_lvl, HwConfValue.num 0),
       (HwConfField.rx_dma_burst_lvl, HwConfValue.num 0),
       (HwConfField.tx_dma_channel, HwConfValue.dma HW_DMA_CHANNEL_3),
       (HwConfField.rx_dma_channel, HwConfValue.dma HW_DMA_CHANNEL_2) ]

/-- A field is explicitly set when some initialiser of the table designates it. -/
def explicitlySet (tbl : List (HwConfField × HwConfValue)) (f : HwConfField) : Bool :=
  tbl.any (fun e => decide (e.1 = f))

/-- Value a field of the initialised object holds: C initialisation lets the
last initialiser for a subobject override earlier ones, and a field without
an initialiser is zero-initialised (`none` here). -/
def fieldValue (tbl : List (HwConfField × HwConfValue)) (f : HwConfField) :
    Option HwConfValue :=
  (tbl.reverse.find? (fun e => decide (e.1 = f))).map Prod.snd

/-- Numeric reading of a bit-field such as `auto_flow_control` or `use_dma`:
the initialiser's number, or zero when the field has no initialiser. -/
def bitValue (tbl : List (HwConfField × HwConfValue)) (f : HwConfField) : Nat :=
  match fieldValue tbl f with
  | some (HwConfValue.num n) => n
  | _ => 0

/-! ## The bus descriptor `uart_bus` -/

/-- Field designators of `uart_bus`. -/
inductive IoField where
  | rx
  | tx
  | rtsn
  | ctsn
  | voltage_level
  deriving DecidableEq, Repr

/-- Right-hand sides of the designated initialisers of `uart_bus`. -/
inductive IoValue where
  | pinConf (d : ad_io_conf_t)
  | power (p : HW_GPIO_POWER)
  deriving DecidableEq, Repr

/-- The designated-initialiser list of `uart_bus`, in source order, after
preprocessing under build configuration `b`. -/
def uart_bus (b : BuildConfig) : List (IoField × IoValue) :=
  [ (IoField.rx, IoValue.pinConf
      { port := b.UART_RX_PORT, pin := b.UART_RX_PIN,
        on_ := ⟨HW_GPIO_MODE_INPUT, HW_GPIO_FUNC_UART2_RX, false⟩,
        off_ := ⟨HW_GPIO_MODE_INPUT, HW_GPIO_FUNC_GPIO, true⟩ }),
    (IoField.tx, IoValue.pinConf
      { port := b.UART_TX_PORT, pin := b.UART_TX_PIN,
        on_ := ⟨HW_GPIO_MODE_OUTPUT, HW_GPIO_FUNC_UART2_TX, false⟩,
        off_ := ⟨HW_GPIO_MODE_INPUT, HW_GPIO_FUNC_GPIO, true⟩ }) ]
  ++ (if b.CFG_UART_HW_FLOW_CTRL then
        [ (IoField.rtsn, IoValue.pinConf
            { port := b.UART_RTS_PORT, pin := b.UART_RTS_PIN,
              on_ := ⟨HW_GPIO_MODE_OUTPUT, HW_GPIO_FUNC_UART2_RTSN, false⟩,
              off_ := ⟨HW_GPIO_MODE_OUTPUT, HW_GPIO_FUNC_GPIO, true⟩ }),
          (IoField.ctsn, IoValue.pinConf
            { port := b.UART_CTS_PORT, pin := b.UART_CTS_PIN,
              on_ := ⟨HW_GPIO_MODE_INPUT, HW_GPIO_FUNC_UART2_CTSN, false⟩,
              off_ := ⟨HW_GPIO_MODE_INPUT, HW_GPIO_FUNC_GPIO, true⟩ }) ]
      else [])
  ++ [ (IoField.voltage_level, IoValue.power HW_GPIO_POWER_V33) ]

/-- Designators present in the bus table, in source order. -/
def busFields (b : BuildConfig) : List IoField :=
  (uart_bus b).map Prod.fst

/-- The pin descriptor the bus table gives for designator `f`, if any. -/
def busPin (b : BuildConfig) (f : IoField) : Option ad_io_conf_t :=
  match (uart_bus b).find? (fun e => decide (e.1 = f)) with
  | some (_, IoValue.pinConf d) => some d
  | _ => none

/-! ## `misc.h`: context-aware tick read -/

/-- The two phases of a timestamp operation. -/
inductive SYS_TIMESTAMP where
  | SYS_TIMESTAMP_START
  | SYS_TIMESTAMP_STOP
  deriving DecidableEq, Repr

/-- The two uptime accessors of the system timer service. -/
inductive TickAccessor where
  | sys_timer_get_uptime_ticks_fromISR
  | sys_timer_get_uptime_ticks
  deriving DecidableEq, Repr

/-- What `misc.h` observes of the running system at the moment of a call:
the answer of `in_interrupt()`, the count each uptime accessor would deliver,
and the log of accessor calls made so far. -/
structure SysEnv where
  in_interrupt : Bool
  uptime_fromISR : Nat
  uptime_thread : Nat
  calls : List TickAccessor
  deriving DecidableEq, Repr

/-- Width of the tick counter: the accessors return `uint64_t`. -/
def TICK_MOD : Nat := 2 ^ 64

/-- The external interrupt-context accessor: delivers a `uint64_t` and is
recorded in the call log. -/
def sys_timer_get_uptime_ticks_fromISR (e : SysEnv) : Nat × SysEnv :=
  (e.uptime_fromISR % TICK_MOD,
   { e with calls := e.calls ++ [TickAccessor.sys_timer_get_uptime_ticks_fromISR] })

/-- The external thread-context accessor: delivers a `uint64_t` and is
recorded in the call log. -/
def sys_timer_get_uptime_ticks (e : SysEnv) : Nat × SysEnv :=
  (e.uptime_thread % TICK_MOD,
   { e with calls := e.calls ++ [TickAccessor.sys_timer_get_uptime_ticks] })

/-- The inline wrapper of `misc.h`:
`in_interrupt() ? sys_timer_get_uptime_ticks_fromISR() : sys_timer_get_uptime_ticks()`.
Only the selected operand of the conditional is evaluated. -/
def __sys_ticks_timestamp (e : SysEnv) : Nat × SysEnv :=
  if e.in_interrupt then sys_timer_get_uptime_ticks_fromISR e
  else sys_timer_get_uptime_ticks e

/-! ## `misc.h`: elapsed-time helper -/

/-- Modelled from the spec: the state kept by `get_sys_timestamp_us`, whose
body is not among the translated sources; a process-wide pair of tick values
(start, stop). -/
structure TimestampState where
  start : Nat
  stop : Nat
  deriving DecidableEq, Repr

/-- Modelled from the spec: the body of `get_sys_timestamp_us` is not among the
translated sources (only its prototype and documentation in `misc.h` are).
`START` records the current tick value and returns 0; `STOP` reads the
current tick value and returns the elapsed ticks since the last `START`,
taken as an unsigned 64-bit difference, converted to microseconds.  The
tick-to-microsecond conversion `ticks_to_us` depends on the low-power clock
rate and is a parameter. -/
def get_sys_timestamp_us (ticks_to_us : Nat → Nat) (state : SYS_TIMESTAMP)
    (ts : TimestampState) (e : SysEnv) : Nat × TimestampState × SysEnv :=
  let r := __sys_ticks_timestamp e
  match state with
  | SYS_TIMESTAMP.SYS_TIMESTAMP_START => (0, { ts with start := r.1 }, r.2)
  | SYS_TIMESTAMP.SYS_TIMESTAMP_STOP =>
      (ticks_to_us ((r.1 + TICK_MOD - ts.start) % TICK_MOD), { ts with stop := r.1 }, r.2)

/-! ## `misc.h`: pin lists, bulk GPIO configuration and PDC registration -/

/-- Modelled from the spec: the macro `HW_GPIO_PINCONFIG_END` is defined in a
driver header outside the translated sources.  An element of a
caller-supplied array is a payload, or the terminator the prototypes of
`misc.h` require at the end of the list. -/
inductive Terminated (α : Type) where
  | entry (a : α)
  | HW_GPIO_PINCONFIG_END
  deriving DecidableEq, Repr

/-- Modelled from the spec: the type `gpio_config` is declared in a driver
header outside the translated sources.  One element of the `gpio_list`
argument is a pin identity together with the single configuration (mode,
function, level) to apply to it. -/
structure gpio_config where
  port : Nat
  pin : Nat
  conf : ad_pin_conf_t
  deriving DecidableEq, Repr

/-- Modelled from the spec: the GPIO block the configurator acts on.  It holds
the configuration latched on each pad (`none` while a pad has never been
configured) and the supply rail selected for the pads. -/
structure GpioHw where
  pad : Nat × Nat → Option ad_pin_conf_t
  rail : Option HW_GPIO_POWER

/-- Modelled from the spec: the per-pin step of `app_gpio_pins_cfg`, which
sets drive mode, function and logic level of the pad the entry names. -/
def hw_gpio_configure_pin (hw : GpioHw) (c : gpio_config) : GpioHw :=
  { hw with pad := fun k => if k = (c.port, c.pin) then some c.conf else hw.pad k }

/-- Modelled from the spec: the loop of `app_gpio_pins_cfg`, a walk of the
terminated array that configures each pad in list order.  Running off the
array without meeting the terminator is undefined; it is reported as `none`. -/
def gpio_walk : List (Terminated gpio_config) → GpioHw → Option GpioHw
  | [], _ => none
  | Terminated.HW_GPIO_PINCONFIG_END :: _, hw => some hw
  | Terminated.entry c :: rest, hw => gpio_walk rest (hw_gpio_configure_pin hw c)

/-- Modelled from the spec: the body of `app_gpio_pins_cfg` is not among the
translated sources (only its prototype in `misc.h` is).  For every member
pin, in list order, the drive mode, function and logic level are set; then
the shared power rail level is applied once.  A list without terminator
fails without touching the hardware. -/
def app_gpio_pins_cfg (gpio_list : List (Terminated gpio_config))
    (pin_power : HW_GPIO_POWER) (hw : GpioHw) : Option GpioHw :=
  (gpio_walk gpio_list hw).map (fun h => { h with rail := some pin_power })

/-- Modelled from the spec: the `target_state` argument of `apply_pin_set`,
naming one of the two states of a pin descriptor. -/
inductive TargetState where
  | on_
  | off_
  deriving DecidableEq, Repr

/-- The `gpio_list` element a pin descriptor yields for a target state. -/
def select_state (t : TargetState) (d : ad_io_conf_t) : gpio_config :=
  match t with
  | TargetState.on_ => { port := d.port, pin := d.pin, conf := d.on_ }
  | TargetState.off_ => { port := d.port, pin := d.pin, conf := d.off_ }

/-- Element-wise image of a terminated array; the terminator is kept. -/
def Terminated.map {α β : Type} (f : α → β) : Terminated α → Terminated β
  | Terminated.entry a => Terminated.entry (f a)
  | Terminated.HW_GPIO_PINCONFIG_END => Terminated.HW_GPIO_PINCONFIG_END

/-- Modelled from the spec: `apply_pin_set(list, power_level, target_state)`.
The prototype of `app_gpio_pins_cfg` has no target-state argument, so the
target state decides which state of every descriptor is placed in the
`gpio_list` handed to it. -/
def apply_pin_set (list : List (Terminated ad_io_conf_t)) (power_level : HW_GPIO_POWER)
    (t : TargetState) (hw : GpioHw) : Option GpioHw :=
  app_gpio_pins_cfg (list.map (Terminated.map (select_state t))) power_level hw

/-- Modelled from the spec: the target power domain of a wake entry.  The
documentation of `app_gpio_pins_pdc_cfg` names the application processor
(CM33) as the one the PDC powers on. -/
inductive PdcMaster where
  | CM33
  deriving DecidableEq, Repr

/-- Modelled from the spec: a wake (PDC) entry, made of pin identity, trigger
polarity and target power domain. -/
structure WakeEntry where
  port : Nat
  pin : Nat
  polarity : Bool
  master : PdcMaster
  deriving DecidableEq, Repr

/-- Modelled from the spec: the wake-entry table of the power-domain
controller, which is outside the translated sources.  It is a finite set of
trigger slots: `capacity` is the number of slots and `entries` the slots in
use, oldest first. -/
structure PdcTable where
  capacity : Nat
  entries : List WakeEntry
  deriving DecidableEq, Repr

/-- Modelled from the spec: the controller's entry-table registration call.
It accepts (pin identity, trigger polarity, target domain) and returns
success, the table with the entry in the next free slot, or exhaustion
(`none`) when no slot is free. -/
def pdc_add_entry (t : PdcTable) (w : WakeEntry) : Option PdcTable :=
  if t.entries.length < t.capacity then
    some { capacity := t.capacity, entries := t.entries ++ [w] }
  else none

/-- Modelled from the spec: how a registration pass ends.  Either every
listed pin was registered, or the table was exhausted (the entries
registered before the failing one are in the returned table, the failing pin
and the pins after it are not), or the list had no terminator, which is
undefined. -/
inductive PdcOutcome where
  | registered (t : PdcTable)
  | exhausted (t : PdcTable)
  | unterminated
  deriving DecidableEq, Repr

/-- Modelled from the spec: the wake entry derived from a list element, made
of the pin's identity, the polarity of its listed state, and the application
processor as target. -/
def wake_entry_of (c : gpio_config) : WakeEntry :=
  { port := c.port, pin := c.pin, polarity := c.conf.high, master := PdcMaster.CM33 }

/-- Modelled from the spec: the body of `app_gpio_pins_pdc_cfg` is not among
the translated sources (only its prototype in `misc.h` is).  For each pin of
the terminated list, in order, one wake entry is derived and submitted to the
power-domain controller's entry table.  When the table is exhausted the pass
fails explicitly at that pin; nothing is dropped silently. -/
def app_gpio_pins_pdc_cfg : List (Terminated gpio_config) → PdcTable → PdcOutcome
  | [], _ => PdcOutcome.unterminated
  | Terminated.HW_GPIO_PINCONFIG_END :: _, t => PdcOutcome.registered t
  | Terminated.entry c :: rest, t =>
      match pdc_add_entry t (wake_entry_of c) with
      | some t1 => app_gpio_pins_pdc_cfg rest t1
      | none => PdcOutcome.exhausted t

/-- Modelled from the spec: `register_wake_sources(list)` derives each wake
entry from the descriptor's "on" state polarity. -/
def register_wake_sources (list : List (Terminated ad_io_conf_t)) (t : PdcTable) :
    PdcOutcome :=
  app_gpio_pins_pdc_cfg (list.map (Terminated.map (select_state TargetState.on_))) t

/-- A pin list as laid out in memory: the descriptors of `L`, the terminator,
and whatever follows it in memory. -/
def pin_list (L : List ad_io_conf_t) (after : List (Terminated ad_io_conf_t)) :
    List (Terminated ad_io_conf_t) :=
  L.map Terminated.entry ++ Terminated.HW_GPIO_PINCONFIG_END :: after

/-- Pin identity of a descriptor. -/
def pin_id (d : ad_io_conf_t) : Nat × Nat := (d.port, d.pin)

/-! ## Concrete builds, descriptors and inputs -/

/-- A build with neither flow-control option defined. -/
def buildNoFlowCtrl : BuildConfig :=
  { CFG_UART_HW_FLOW_CTRL := false, CFG_UART_SW_FLOW_CTRL := false,
    CFG_UART_SPS_BAUDRATE := 115200,
    UART_RX_PORT := 0, UART_RX_PIN := 8, UART_TX_PORT := 0, UART_TX_PIN := 9,
    UART_RTS_PORT := 1, UART_RTS_PIN := 0, UART_CTS_PORT := 0, UART_CTS_PIN := 7 }

/-- A build with only hardware flow control defined. -/
def buildHwFlowCtrl : BuildConfig :=
  { buildNoFlowCtrl with CFG_UART_HW_FLOW_CTRL := true }

/-- A build with both flow-control options defined. -/
def buildBothFlowCtrl : BuildConfig :=
  { buildNoFlowCtrl with CFG_UART_HW_FLOW_CTRL := true, CFG_UART_SW_FLOW_CTRL := true }

/-- The `rtsn` descriptor of the hardware-flow-control build. -/
def rtsnOfHwBuild : ad_io_conf_t :=
  { port := 1, pin := 0,
    on_ := ⟨HW_GPIO_MODE_OUTPUT, HW_GPIO_FUNC_UART2_RTSN, false⟩,
    off_ := ⟨HW_GPIO_MODE_OUTPUT, HW_GPIO_FUNC_GPIO, true⟩ }

/-- The `tx` descriptor of the build without flow control. -/
def txOfNoFlowBuild : ad_io_conf_t :=
  { port := 0, pin := 9,
    on_ := ⟨HW_GPIO_MODE_OUTPUT, HW_GPIO_FUNC_UART2_TX, false⟩,
    off_ := ⟨HW_GPIO_MODE_INPUT, HW_GPIO_FUNC_GPIO, true⟩ }

/-- The `ctsn` descriptor of the hardware-flow-control build. -/
def ctsnOfHwBuild : ad_io_conf_t :=
  { port := 0, pin := 7,
    on_ := ⟨HW_GPIO_MODE_INPUT, HW_GPIO_FUNC_UART2_CTSN, false⟩,
    off_ := ⟨HW_GPIO_MODE_INPUT, HW_GPIO_FUNC_GPIO, true⟩ }

/-- Tick source just before the 64-bit counter wraps, read from thread
context. -/
def envBeforeWrap : SysEnv :=
  { in_interrupt := false, uptime_fromISR := 0, uptime_thread := 2 ^ 64 - 3, calls := [] }

/-- Tick source ten ticks later, after the counter has wrapped, read from
interrupt context. -/
def envAfterWrap : SysEnv :=
  { in_interrupt := true, uptime_fromISR := 7, uptime_thread := 0, calls := [] }

/-- A conversion for a 32768 Hz low-power clock. -/
def ticks_to_us_32k (t : Nat) : Nat := t * 1000000 / 32768

/-- A GPIO block on which nothing has been configured yet. -/
def hwReset : GpioHw := { pad := fun _ => none, rail := none }

/-- A two-pin list: the `tx` line and the `ctsn` line. -/
def twoPins : List ad_io_conf_t := [txOfNoFlowBuild, ctsnOfHwBuild]

/-- Nine input pins `P0_0` .. `P0_8`, each with a distinct pin number. -/
def ninePins : List ad_io_conf_t :=
  (List.range 9).map (fun i =>
    { port := 0, pin := i,
      on_ := ⟨HW_GPIO_MODE_INPUT, HW_GPIO_FUNC_GPIO, false⟩,
      off_ := ⟨HW_GPIO_MODE_INPUT, HW_GPIO_FUNC_GPIO, true⟩ })

/-- An empty wake-entry table with eight trigger slots. -/
def pdcEightSlots : PdcTable := { capacity := 8, entries := [] }

/-! ## Properties of the descriptor tables -/

/-- C1: the bus table designates `rtsn` and `ctsn` exactly when
`CFG_UART_HW_FLOW_CTRL` is defined, and with the option undefined the table
consists of `rx`, `tx` and `voltage_level` only. -/
theorem uart_bus_flow_pins_iff_hw_flow_ctrl (b : BuildConfig) :
    (IoField.rtsn ∈ busFields b ↔ b.CFG_UART_HW_FLOW_CTRL = true) ∧
    (IoField.ctsn ∈ busFields b ↔ b.CFG_UART_HW_FLOW_CTRL = true) ∧
    ((busPin b IoField.rtsn).isSome = b.CFG_UART_HW_FLOW_CTRL) ∧
    ((busPin b IoField.ctsn).isSome = b.CFG_UART_HW_FLOW_CTRL) ∧
    (b.CFG_UART_HW_FLOW_CTRL = false →
      busFields b = [IoField.rx, IoField.tx, IoField.voltage_level]) := by
  cases h : b.CFG_UART_HW_FLOW_CTRL <;> simp [busFields, busPin, uart_bus, h]

/-- C1 at a build without hardware flow control: only the data lines and the
voltage level are in the table. -/
theorem uart_bus_flow_pins_iff_hw_flow_ctrl_witness :
    busFields buildNoFlowCtrl = [IoField.rx, IoField.tx, IoField.voltage_level] :=
  (uart_bus_flow_pins_iff_hw_flow_ctrl buildNoFlowCtrl).2.2.2.2 rfl

/-- C3: whenever the bus table carries an `rtsn` descriptor, both of its
states use output drive mode, and its off-state is plain GPIO driven to
logic high (RTS de-asserted). -/
theorem uart_bus_rtsn_never_floating (b : BuildConfig) (d : ad_io_conf_t)
    (h : busPin b IoField.rtsn = some d) :
    d.on_.mode = HW_GPIO_MODE_OUTPUT ∧
    d.off_.mode = HW_GPIO_MODE_OUTPUT ∧
    d.off_.function = HW_GPIO_FUNC_GPIO ∧
    d.off_.high = true := by
  cases hb : b.CFG_UART_HW_FLOW_CTRL
  · simp [busPin, uart_bus, hb] at h
  · simp [busPin, uart_bus, hb] at h
    subst h
    simp

/-- C3 at the hardware-flow-control build, for the `rtsn` descriptor of that
build. -/
theorem uart_bus_rtsn_never_floating_witness :
    busPin buildHwFlowCtrl IoField.rtsn = some rtsnOfHwBuild ∧
    rtsnOfHwBuild.on_.mode = HW_GPIO_MODE_OUTPUT ∧
    rtsnOfHwBuild.off_.mode = HW_GPIO_MODE_OUTPUT ∧
    rtsnOfHwBuild.off_.function = HW_GPIO_FUNC_GPIO ∧
    rtsnOfHwBuild.off_.high = true :=
  ⟨rfl, uart_bus_rtsn_never_floating buildHwFlowCtrl rtsnOfHwBuild rfl⟩

/-- C4 fails as stated: in the build with neither flow-control option
defined, the field `auto_flow_control` has no initialiser in the driver
table. -/
theorem uart_drv_not_exhaustive_without_flow_options :
    ¬ (∀ f : HwConfField, explicitlySet (uart_drv buildNoFlowCtrl) f = true) :=
  fun h => absurd (h HwConfField.auto_flow_control) (by decide)

/-- C4, amended: a field of `hw_conf` has an initialiser in the driver table
exactly when it is not `auto_flow_control`, or at least one of the two
flow-control options is defined. -/
theorem uart_drv_explicitly_set_iff (b : BuildConfig) (f : HwConfField) :
    explicitlySet (uart_drv b) f = true ↔
      (f ≠ HwConfField.auto_flow_control ∨
        b.CFG_UART_HW_FLOW_CTRL = true ∨ b.CFG_UART_SW_FLOW_CTRL = true) := by
  cases hh : b.CFG_UART_HW_FLOW_CTRL <;> cases hs : b.CFG_UART_SW_FLOW_CTRL <;>
    cases f <;> simp [explicitlySet, uart_drv, hh, hs]

/-- C5: in every build the driver table enables the transfer engine and
assigns channel 3 to transmit and channel 2 to receive, which are different
channels. -/
theorem uart_drv_dma_channels_distinct (b : BuildConfig) :
    bitValue (uart_drv b) HwConfField.use_dma = 1 ∧
    fieldValue (uart_drv b) HwConfField.tx_dma_channel =
      some (HwConfValue.dma HW_DMA_CHANNEL_3) ∧
    fieldValue (uart_drv b) HwConfField.rx_dma_channel =
      some (HwConfValue.dma HW_DMA_CHANNEL_2) ∧
    fieldValue (uart_drv b) HwConfField.tx_dma_channel ≠
      fieldValue (uart_drv b) HwConfField.rx_dma_channel := by
  cases hh : b.CFG_UART_HW_FLOW_CTRL <;> cases hs : b.CFG_UART_SW_FLOW_CTRL <;>
    simp [bitValue, fieldValue, uart_drv, hh, hs]

/-- C9 fails as stated: with both flow-control options defined the later
initialiser `.auto_flow_control = 0` wins, while the bus table carries `rtsn`
and `ctsn`. -/
theorem uart_drv_auto_flow_mismatch_when_both_defined :
    ¬ (bitValue (uart_drv buildBothFlowCtrl) HwConfField.auto_flow_control = 1 ↔
        (IoField.rtsn ∈ busFields buildBothFlowCtrl ∧
          IoField.ctsn ∈ busFields buildBothFlowCtrl)) := by
  decide

/-- C9, amended: unless both flow-control options are defined at once, the
driver table yields `auto_flow_control = 1` exactly when the bus table carries
`rtsn` and `ctsn`. -/
theorem uart_drv_auto_flow_iff_bus_flow_pins (b : BuildConfig)
    (h : ¬ (b.CFG_UART_HW_FLOW_CTRL = true ∧ b.CFG_UART_SW_FLOW_CTRL = true)) :
    bitValue (uart_drv b) HwConfField.auto_flow_control = 1 ↔
      (IoField.rtsn ∈ busFields b ∧ IoField.ctsn ∈ busFields b) := by
  cases hh : b.CFG_UART_HW_FLOW_CTRL <;> cases hs : b.CFG_UART_SW_FLOW_CTRL <;>
    simp [bitValue, fieldValue, uart_drv, busFields, uart_bus, hh, hs] at h ⊢

/-- C9, amended, at the hardware-flow-control build: automatic flow control is
on and both flow-control pins are in the bus table. -/
theorem uart_drv_auto_flow_iff_bus_flow_pins_witness :
    bitValue (uart_drv buildHwFlowCtrl) HwConfField.auto_flow_control = 1 ↔
      (IoField.rtsn ∈ busFields buildHwFlowCtrl ∧
        IoField.ctsn ∈ busFields buildHwFlowCtrl) :=
  uart_drv_auto_flow_iff_bus_flow_pins buildHwFlowCtrl (by decide)

/-- C10: in every build the bus table carries an `rx` and a `tx` descriptor,
and with hardware flow control an `rtsn` and a `ctsn` descriptor; each of
them selects, in its on-state, the UART2 function of its own role with the
direction of that role (input for `rx` and `ctsn`, output for `tx` and
`rtsn`), and in its off-state the plain GPIO function at logic high, so its
two states differ.  The table holds no other pin descriptor: every entry
carrying a pin descriptor is one of these, with these properties. -/
theorem uart_bus_pin_roles (b : BuildConfig) :
    (∃ d, busPin b IoField.rx = some d ∧
      d.on_.function = HW_GPIO_FUNC_UART2_RX ∧ d.on_.mode = HW_GPIO_MODE_INPUT ∧
      d.off_.function = HW_GPIO_FUNC_GPIO ∧ d.off_.high = true ∧ d.on_ ≠ d.off_) ∧
    (∃ d, busPin b IoField.tx = some d ∧
      d.on_.function = HW_GPIO_FUNC_UART2_TX ∧ d.on_.mode = HW_GPIO_MODE_OUTPUT ∧
      d.off_.function = HW_GPIO_FUNC_GPIO ∧ d.off_.high = true ∧ d.on_ ≠ d.off_) ∧
    (b.CFG_UART_HW_FLOW_CTRL = true →
      (∃ d, busPin b IoField.rtsn = some d ∧
        d.on_.function = HW_GPIO_FUNC_UART2_RTSN ∧ d.on_.mode = HW_GPIO_MODE_OUTPUT ∧
        d.off_.function = HW_GPIO_FUNC_GPIO ∧ d.off_.high = true ∧ d.on_ ≠ d.off_) ∧
      (∃ d, busPin b IoField.ctsn = some d ∧
        d.on_.function = HW_GPIO_FUNC_UART2_CTSN ∧ d.on_.mode = HW_GPIO_MODE_INPUT ∧
        d.off_.function = HW_GPIO_FUNC_GPIO ∧ d.off_.high = true ∧ d.on_ ≠ d.off_)) ∧
    (∀ (f : IoField) (d : ad_io_conf_t), (f, IoValue.pinConf d) ∈ uart_bus b →
      busPin b f = some d ∧
      (match f with
        | IoField.rx =>
            d.on_.function = HW_GPIO_FUNC_UART2_RX ∧ d.on_.mode = HW_GPIO_MODE_INPUT
        | IoField.tx =>
            d.on_.function = HW_GPIO_FUNC_UART2_TX ∧ d.on_.mode = HW_GPIO_MODE_OUTPUT
        | IoField.rtsn =>
            d.on_.function = HW_GPIO_FUNC_UART2_RTSN ∧ d.on_.mode = HW_GPIO_MODE_OUTPUT
        | IoField.ctsn =>
            d.on_.function = HW_GPIO_FUNC_UART2_CTSN ∧ d.on_.mode = HW_GPIO_MODE_INPUT
        | IoField.voltage_level => False) ∧
      d.off_.function = HW_GPIO_FUNC_GPIO ∧
      d.off_.high = true ∧
      d.on_ ≠ d.off_) := by
  refine ⟨?_, ?_, ?_, ?_⟩
  · cases hb : b.CFG_UART_HW_FLOW_CTRL <;> simp [busPin, uart_bus, hb]
  · cases hb : b.CFG_UART_HW_FLOW_CTRL <;> simp [busPin, uart_bus, hb]
  · intro hb
    simp [busPin, uart_bus, hb]
  · intro f d hmem
    cases hb : b.CFG_UART_HW_FLOW_CTRL
    · simp [uart_bus, hb] at hmem
      rcases hmem with ⟨rfl, rfl⟩ | ⟨rfl, rfl⟩ <;> simp [busPin, uart_bus, hb]
    · simp [uart_bus, hb] at hmem
      rcases hmem with ⟨rfl, rfl⟩ | ⟨rfl, rfl⟩ | ⟨rfl, rfl⟩ | ⟨rfl, rfl⟩ <;>
        simp [busPin, uart_bus, hb]

/-- C10 at the hardware-flow-control build: the `ctsn` descriptor is present
with the `UART2_CTSN` input role, and its off-state is GPIO at logic high. -/
theorem uart_bus_pin_roles_witness :
    ∃ d, busPin buildHwFlowCtrl IoField.ctsn = some d ∧
      d.on_.function = HW_GPIO_FUNC_UART2_CTSN ∧ d.on_.mode = HW_GPIO_MODE_INPUT ∧
      d.off_.function = HW_GPIO_FUNC_GPIO ∧ d.off_.high = true ∧ d.on_ ≠ d.off_ :=
  ((uart_bus_pin_roles buildHwFlowCtrl).2.2.1 rfl).2

/-! ## Properties of the tick read and the elapsed-time helper -/

/-- C2: in interrupt context the wrapper returns what the interrupt-context
accessor returns and calls only that accessor; in thread context it returns
what the thread-context accessor returns and calls only that one.  In both
cases exactly one accessor call is added to the log. -/
theorem sys_ticks_timestamp_selects_accessor (e : SysEnv) :
    match e.in_interrupt with
    | true =>
        __sys_ticks_timestamp e = sys_timer_get_uptime_ticks_fromISR e ∧
        (__sys_ticks_timestamp e).2.calls =
          e.calls ++ [TickAccessor.sys_timer_get_uptime_ticks_fromISR]
    | false =>
        __sys_ticks_timestamp e = sys_timer_get_uptime_ticks e ∧
        (__sys_ticks_timestamp e).2.calls =
          e.calls ++ [TickAccessor.sys_timer_get_uptime_ticks] := by
  cases h : e.in_interrupt <;>
    simp [__sys_ticks_timestamp, sys_timer_get_uptime_ticks,
      sys_timer_get_uptime_ticks_fromISR, h]

/-- Unsigned subtraction on the tick width recovers an elapsed count below the
width, whether or not the counter wrapped. -/
theorem tick_diff_recovers (s d : Nat) (hs : s < TICK_MOD) (hd : d < TICK_MOD) :
    ((s + d) % TICK_MOD + TICK_MOD - s) % TICK_MOD = d := by
  unfold TICK_MOD at *
  omega

/-- Every tick read is below the tick width. -/
theorem sys_ticks_timestamp_lt (e : SysEnv) : (__sys_ticks_timestamp e).1 < TICK_MOD := by
  have hpos : 0 < TICK_MOD := by unfold TICK_MOD; norm_num
  unfold __sys_ticks_timestamp sys_timer_get_uptime_ticks sys_timer_get_uptime_ticks_fromISR
  split <;> exact Nat.mod_lt _ hpos

/-- C6: for the tick read `s` taken by `START` and the read `e` taken by the
following `STOP`, `STOP` returns the conversion of `(e - s) mod 2^64`; hence
whenever `e` is `s` advanced by `d < 2^64` ticks on the wrapping counter,
`STOP` returns the conversion of `d`. -/
theorem get_sys_timestamp_us_elapsed (ticks_to_us : Nat → Nat) (ts : TimestampState)
    (envS envE : SysEnv) :
    (get_sys_timestamp_us ticks_to_us SYS_TIMESTAMP.SYS_TIMESTAMP_START ts envS).1 = 0 ∧
    (get_sys_timestamp_us ticks_to_us SYS_TIMESTAMP.SYS_TIMESTAMP_STOP
        (get_sys_timestamp_us ticks_to_us SYS_TIMESTAMP.SYS_TIMESTAMP_START ts envS).2.1
        envE).1 =
      ticks_to_us (((__sys_ticks_timestamp envE).1 + TICK_MOD -
        (__sys_ticks_timestamp envS).1) % TICK_MOD) ∧
    (∀ d : Nat, d < TICK_MOD →
      (__sys_ticks_timestamp envE).1 = ((__sys_ticks_timestamp envS).1 + d) % TICK_MOD →
      (get_sys_timestamp_us ticks_to_us SYS_TIMESTAMP.SYS_TIMESTAMP_STOP
        (get_sys_timestamp_us ticks_to_us SYS_TIMESTAMP.SYS_TIMESTAMP_START ts envS).2.1
        envE).1 = ticks_to_us d) := by
  refine ⟨rfl, rfl, ?_⟩
  intro d hd he
  have hs := sys_ticks_timestamp_lt envS
  simp only [get_sys_timestamp_us]
  rw [he, tick_diff_recovers _ _ hs hd]

/-- C6 across a wraparound: `START` at tick `2^64 - 3`, `STOP` at tick `7`,
ten ticks later; the result is the conversion of ten ticks. -/
theorem get_sys_timestamp_us_elapsed_witness :
    (get_sys_timestamp_us ticks_to_us_32k SYS_TIMESTAMP.SYS_TIMESTAMP_STOP
        (get_sys_timestamp_us ticks_to_us_32k SYS_TIMESTAMP.SYS_TIMESTAMP_START
          ⟨0, 0⟩ envBeforeWrap).2.1
        envAfterWrap).1 = ticks_to_us_32k 10 :=
  (get_sys_timestamp_us_elapsed ticks_to_us_32k ⟨0, 0⟩ envBeforeWrap envAfterWrap).2.2
    10 (by decide) (by decide)

/-! ## Properties of the list-walking operations -/

/-- Selecting a state element-wise keeps the layout of a pin list: the
selected configurations, the terminator, then the image of what follows. -/
theorem map_select_pin_list (t : TargetState) (L : List ad_io_conf_t)
    (after : List (Terminated ad_io_conf_t)) :
    (pin_list L after).map (Terminated.map (select_state t)) =
      (L.map (select_state t)).map Terminated.entry ++
        Terminated.HW_GPIO_PINCONFIG_END ::
          after.map (Terminated.map (select_state t)) := by
  simp [pin_list, Terminated.map, Function.comp_def]

/-- The walk stops at the first terminator, having configured exactly the
entries in front of it, in order. -/
theorem gpio_walk_terminated (cs : List gpio_config) (rest : List (Terminated gpio_config))
    (hw : GpioHw) :
    gpio_walk (cs.map Terminated.entry ++ Terminated.HW_GPIO_PINCONFIG_END :: rest) hw =
      some (cs.foldl hw_gpio_configure_pin hw) := by
  induction cs generalizing hw with
  | nil => simp [gpio_walk]
  | cons c cs ih => simp [gpio_walk, ih]

/-- Pads not named in the list keep their configuration. -/
theorem foldl_configure_pad_of_not_mem (cs : List gpio_config) (hw : GpioHw) (k : Nat × Nat)
    (hk : k ∉ cs.map (fun c => (c.port, c.pin))) :
    (cs.foldl hw_gpio_configure_pin hw).pad k = hw.pad k := by
  induction cs generalizing hw with
  | nil => rfl
  | cons c cs ih =>
    simp only [List.map_cons, List.mem_cons, not_or] at hk
    simp only [List.foldl_cons]
    rw [ih _ hk.2]
    simp [hw_gpio_configure_pin, hk.1]

/-- With unique pin identities, every listed pad ends up with the
configuration its own entry carries. -/
theorem foldl_configure_pad_of_mem (cs : List gpio_config) (hw : GpioHw) (c : gpio_config)
    (nd : (cs.map (fun c => (c.port, c.pin))).Nodup) (hc : c ∈ cs) :
    (cs.foldl hw_gpio_configure_pin hw).pad (c.port, c.pin) = some c.conf := by
  induction cs generalizing hw with
  | nil => cases hc
  | cons a cs ih =>
    simp only [List.map_cons, List.nodup_cons] at nd
    simp only [List.foldl_cons]
    rcases List.mem_cons.1 hc with h | h
    · subst h
      rw [foldl_configure_pad_of_not_mem _ _ _ nd.1]
      simp [hw_gpio_configure_pin]
    · exact ih _ nd.2 h

/-- While free slots remain for all of them, the registrar registers every
list element in front of the terminator, in order, behind the entries already
in the table. -/
theorem pdc_cfg_terminated_fits (cs : List gpio_config)
    (rest : List (Terminated gpio_config)) (t : PdcTable)
    (hcap : t.entries.length + cs.length ≤ t.capacity) :
    app_gpio_pins_pdc_cfg
        (cs.map Terminated.entry ++ Terminated.HW_GPIO_PINCONFIG_END :: rest) t =
      PdcOutcome.registered
        { capacity := t.capacity, entries := t.entries ++ cs.map wake_entry_of } := by
  induction cs generalizing t with
  | nil => simp [app_gpio_pins_pdc_cfg]
  | cons c cs ih =>
    simp only [List.length_cons] at hcap
    have hlt : t.entries.length < t.capacity := by omega
    simp only [List.map_cons, List.cons_append]
    rw [app_gpio_pins_pdc_cfg]
    simp only [pdc_add_entry, if_pos hlt]
    rw [ih]
    · simp
    · simp only [List.length_append, List.length_singleton]
      omega

/-- When the list holds more pins than there are free slots, the registrar
fills the free slots with the first pins of the list and then reports
exhaustion. -/
theorem pdc_cfg_terminated_exhausts (cs : List gpio_config)
    (rest : List (Terminated gpio_config)) (t : PdcTable)
    (hle : t.entries.length ≤ t.capacity)
    (hcap : t.capacity < t.entries.length + cs.length) :
    app_gpio_pins_pdc_cfg
        (cs.map Terminated.entry ++ Terminated.HW_GPIO_PINCONFIG_END :: rest) t =
      PdcOutcome.exhausted
        { capacity := t.capacity,
          entries := t.entries ++
            (cs.map wake_entry_of).take (t.capacity - t.entries.length) } := by
  induction cs generalizing t with
  | nil => simp at hcap; omega
  | cons c cs ih =>
    simp only [List.length_cons] at hcap
    by_cases hlt : t.entries.length < t.capacity
    · simp only [List.map_cons, List.cons_append]
      rw [app_gpio_pins_pdc_cfg]
      simp only [pdc_add_entry, if_pos hlt]
      rw [ih]
      · have hk : t.capacity - t.entries.length =
            (t.capacity - (t.entries.length + 1)) + 1 := by omega
        simp only [List.length_append, List.length_singleton]
        rw [hk, List.take_succ_cons]
        simp
      · simp only [List.length_append, List.length_singleton]; omega
      · simp only [List.length_append, List.length_singleton]; omega
    · have hz : t.capacity - t.entries.length = 0 := by omega
      simp [app_gpio_pins_pdc_cfg, pdc_add_entry, if_neg hlt, hz]

/-- C7 fails as stated: nine pins with unique identities, registered into an
empty table of eight trigger slots, yield eight entries and an exhaustion
report, not nine entries. -/
theorem register_wake_sources_nine_pins_eight_slots :
    (ninePins.map pin_id).Nodup ∧
    register_wake_sources (pin_list ninePins []) pdcEightSlots =
      PdcOutcome.exhausted
        { capacity := 8,
          entries := (List.range 8).map (fun i =>
            ({ port := 0, pin := i, polarity := false,
               master := PdcMaster.CM33 } : WakeEntry)) } ∧
    ¬ (∃ ws : List WakeEntry,
        register_wake_sources (pin_list ninePins []) pdcEightSlots =
          PdcOutcome.registered { capacity := 8, entries := ws } ∧
        ws.length = ninePins.length) := by
  have hout : register_wake_sources (pin_list ninePins []) pdcEightSlots =
      PdcOutcome.exhausted
        { capacity := 8,
          entries := (List.range 8).map (fun i =>
            ({ port := 0, pin := i, polarity := false,
               master := PdcMaster.CM33 } : WakeEntry)) } := by
    decide
  refine ⟨by decide, hout, ?_⟩
  rintro ⟨ws, hws, -⟩
  rw [hout] at hws
  cases hws

/-- C7, amended: for a terminated pin list `L` with unique pin identities that
fits the free slots of the table, the registrar succeeds, and the entries it
adds are exactly `|L|` many, pairwise distinct, and their pin identities are
those of `L`, one for each pin in list order (so no pin of `L` is missed and
no other pin is registered). -/
theorem register_wake_sources_exact (L : List ad_io_conf_t)
    (after : List (Terminated ad_io_conf_t)) (t : PdcTable)
    (h : (L.map pin_id).Nodup) (hcap : t.entries.length + L.length ≤ t.capacity) :
    ∃ ws : List WakeEntry,
      register_wake_sources (pin_list L after) t =
        PdcOutcome.registered { capacity := t.capacity, entries := t.entries ++ ws } ∧
      ws.length = L.length ∧
      ws.Nodup ∧
      ws.map (fun w => (w.port, w.pin)) = L.map pin_id ∧
      (ws.map (fun w => (w.port, w.pin))).Nodup := by
  have hids : ((L.map (select_state TargetState.on_)).map wake_entry_of).map
      (fun w => (w.port, w.pin)) = L.map pin_id := by
    simp [select_state, wake_entry_of, pin_id, Function.comp_def]
  refine ⟨(L.map (select_state TargetState.on_)).map wake_entry_of, ?_, ?_, ?_, hids, ?_⟩
  · unfold register_wake_sources
    rw [map_select_pin_list, pdc_cfg_terminated_fits]
    simpa using hcap
  · simp
  · exact List.Nodup.of_map _ (hids ▸ h)
  · exact hids ▸ h

/-- C7, amended, on a two-pin list followed directly by the terminator and an
empty table of eight slots. -/
theorem register_wake_sources_exact_witness :
    ∃ ws : List WakeEntry,
      register_wake_sources (pin_list twoPins []) pdcEightSlots =
        PdcOutcome.registered
          { capacity := pdcEightSlots.capacity, entries := pdcEightSlots.entries ++ ws } ∧
      ws.length = twoPins.length ∧
      ws.Nodup ∧
      ws.map (fun w => (w.port, w.pin)) = twoPins.map pin_id ∧
      (ws.map (fun w => (w.port, w.pin))).Nodup :=
  register_wake_sources_exact twoPins [] pdcEightSlots (by decide) (by decide)

/-- On a terminated pin list the configurator succeeds: the selected states
of the listed pins are applied in order, then the rail is set. -/
theorem apply_pin_set_terminated (t : TargetState) (L : List ad_io_conf_t)
    (after : List (Terminated ad_io_conf_t)) (level : HW_GPIO_POWER) (hw : GpioHw) :
    apply_pin_set (pin_list L after) level t hw =
      some { pad := ((L.map (select_state t)).foldl hw_gpio_configure_pin hw).pad,
             rail := some level } := by
  unfold apply_pin_set app_gpio_pins_cfg
  rw [map_select_pin_list, gpio_walk_terminated]
  rfl

/-- C8: for a terminated pin list `L` with unique pin identities and any power
level, applying the on-states and then the off-states both succeed, and
afterwards every pad of `L` holds exactly the off-state its descriptor
declares. -/
theorem apply_pin_set_on_then_off (L : List ad_io_conf_t)
    (after : List (Terminated ad_io_conf_t)) (level : HW_GPIO_POWER) (hw : GpioHw)
    (h : (L.map pin_id).Nodup) :
    ∃ hw1 hw2 : GpioHw,
      apply_pin_set (pin_list L after) level TargetState.on_ hw = some hw1 ∧
      apply_pin_set (pin_list L after) level TargetState.off_ hw1 = some hw2 ∧
      ∀ d ∈ L, hw2.pad (pin_id d) = some d.off_ := by
  refine ⟨_, _, apply_pin_set_terminated TargetState.on_ L after level hw,
    apply_pin_set_terminated TargetState.off_ L after level _, ?_⟩
  intro d hd
  have hids : (L.map (select_state TargetState.off_)).map (fun c => (c.port, c.pin)) =
      L.map pin_id := by
    simp [select_state, pin_id, Function.comp_def]
  have hm : select_state TargetState.off_ d ∈ L.map (select_state TargetState.off_) :=
    List.mem_map_of_mem _ hd
  exact foldl_configure_pad_of_mem _ _ _ (hids ▸ h) hm

/-- C8 on a two-pin list, starting from an unconfigured GPIO block. -/
theorem apply_pin_set_on_then_off_witness :
    ∃ hw1 hw2 : GpioHw,
      apply_pin_set (pin_list twoPins []) HW_GPIO_POWER_V33 TargetState.on_ hwReset =
        some hw1 ∧
      apply_pin_set (pin_list twoPins []) HW_GPIO_POWER_V33 TargetState.off_ hw1 =
        some hw2 ∧
      ∀ d ∈ twoPins, hw2.pad (pin_id d) = some d.off_ :=
  apply_pin_set_on_then_off twoPins [] HW_GPIO_POWER_V33 hwReset (by decide)

end BleSdk10
